import Mathlib

/-!
# Verification of the HLS acquisition-and-remux pipeline (`src/bot.py`)

Shallow embedding of the pure logic of `bot.py`:

* `fetch_playlist_and_cookies` — variant-playlist resolution and cookie-header
  construction (the browser engine, the `m3u8` parser and network I/O are
  oracles passed as function parameters);
* `download_segments_and_concat` — the segment download loop, the concat
  manifest, the `ffmpeg` subprocess invocation, and the cleanup step.

The working directory is modelled as an association list of file names to
file contents; each `open(..., "w"/"wb")` write, each `ctx.request.get` call
and every removed file is tracked explicitly.
-/

/-- Contents of one file in the working directory: binary (written by
`open(..., "wb")`) or text (written by `open(..., "w")`). -/
inductive FileData where
  | bytes (data : List Nat)
  | text (s : String)
  deriving DecidableEq, Repr

/-- The process working directory: an association list from file name to
contents.  Later writes replace earlier entries of the same name. -/
abbrev FS := List (String × FileData)

/-- `open(name, "w"/"wb")` followed by a single write: replaces any existing
entry of that name and appends the fresh entry. -/
def fsWrite (fs : FS) (name : String) (d : FileData) : FS :=
  fs.eraseP (fun e => e.1 == name) ++ [(name, d)]

/-- Look up the current contents of a file. -/
def fsLookup (fs : FS) (name : String) : Option FileData :=
  (fs.find? (fun e => e.1 == name)).map (fun e => e.2)

/-- One cookie as captured from the browsing context (`ctx.cookies()`):
only the `name` and `value` fields are consumed by the code. -/
structure Cookie where
  name : List Char
  value : List Char
  deriving DecidableEq, Repr

/-- One entry of the `cookie_list` rebuilt in `download_segments_and_concat`
and passed to `ctx.add_cookies`. -/
structure SegCookie where
  name : List Char
  value : List Char
  domain : String
  path : String
  deriving DecidableEq, Repr

/-- An HTTP response as seen through Playwright's `ctx.request.get`: the
status code and the body returned by `resp.body()` (Playwright does not
raise on non-2xx statuses). -/
structure HttpResponse where
  status : Nat
  body : List Nat
  deriving DecidableEq, Repr

/-- One outgoing segment request: the URL passed to `ctx.request.get`
together with the cookies held by the browser context issuing it. -/
structure Request where
  url : String
  cookies : List SegCookie
  deriving DecidableEq, Repr

/-- Python-level exceptions that the embedded code itself can raise. -/
inductive PyError where
  /-- `subprocess.CalledProcessError` from `subprocess.run(..., check=True)`. -/
  | calledProcessError (exitCode : Int)
  /-- `IndexError` from `playlist.playlists[0]` on an empty rendition list. -/
  | indexError
  deriving DecidableEq, Repr

/-- A `subprocess.run` invocation: argument vector, the `check` flag, and
the `timeout` argument (`none` when no timeout is passed). -/
structure SubprocessCall where
  args : List String
  check : Bool
  timeout : Option Nat
  deriving DecidableEq, Repr

/-! ## Decimal formatting (`f"{idx:05d}"`) -/

/-- A single decimal digit character. -/
def digitChar : Nat → Char
  | 0 => '0' | 1 => '1' | 2 => '2' | 3 => '3' | 4 => '4'
  | 5 => '5' | 6 => '6' | 7 => '7' | 8 => '8' | _ => '9'

/-- Numeric value of a digit character (left inverse of `digitChar`). -/
def charVal (c : Char) : Nat := c.toNat - 48

/-- Fuel-driven most-significant-first decimal rendering of `n`,
accumulating into `acc`. -/
def toDecimalAux : Nat → Nat → List Char → List Char
  | 0, _, acc => acc
  | fuel + 1, n, acc =>
    if n < 10 then digitChar n :: acc
    else toDecimalAux fuel (n / 10) (digitChar (n % 10) :: acc)

/-- Decimal representation of a natural number, as Python's `str`/`%d`. -/
def natDecimal (n : Nat) : List Char := toDecimalAux (n + 1) n []

/-- Zero-padding to width 5, as Python's `%05d` format. -/
def pad5 (n : Nat) : List Char :=
  List.replicate (5 - (natDecimal n).length) '0' ++ natDecimal n

/-- The temp segment file name `f"seg{idx:05d}.ts"`. -/
def segFileName (idx : Nat) : String :=
  ⟨'s' :: 'e' :: 'g' :: (pad5 idx ++ ['.', 't', 's'])⟩

theorem charVal_digitChar {d : Nat} (hd : d < 10) : charVal (digitChar d) = d := by
  interval_cases d <;> decide

theorem toDecimalAux_eq_digits :
    ∀ (fuel n : Nat) (acc : List Char), 0 < n → n ≤ fuel →
      toDecimalAux fuel n acc = ((Nat.digits 10 n).map digitChar).reverse ++ acc := by
  intro fuel
  induction fuel with
  | zero => intro n acc h1 h2; omega
  | succ fuel ih =>
    intro n acc h1 h2
    rw [toDecimalAux]
    by_cases hn : n < 10
    · simp only [if_pos hn]
      rw [Nat.digits_def' (by norm_num : (1:Nat) < 10) h1]
      have hdiv : n / 10 = 0 := Nat.div_eq_of_lt hn
      have hmod : n % 10 = n := Nat.mod_eq_of_lt hn
      rw [hdiv, hmod]
      simp
    · simp only [if_neg hn]
      have hpos : 0 < n / 10 := Nat.div_pos (by omega) (by norm_num)
      have hle : n / 10 ≤ fuel := by
        have : n / 10 < n := Nat.div_lt_self h1 (by norm_num)
        omega
      rw [ih (n / 10) (digitChar (n % 10) :: acc) hpos hle]
      rw [Nat.digits_def' (by norm_num : (1:Nat) < 10) h1]
      simp

theorem natDecimal_eq_digits (n : Nat) :
    natDecimal n = if n = 0 then ['0'] else ((Nat.digits 10 n).map digitChar).reverse := by
  by_cases h : n = 0
  · subst h; rfl
  · rw [if_neg h, natDecimal,
      toDecimalAux_eq_digits (n + 1) n [] (by omega) (by omega), List.append_nil]

/-- Decoding a digit string back to a number (used only to establish
injectivity of the formatter). -/
def decodeDecimal (l : List Char) : Nat :=
  Nat.ofDigits 10 ((l.map charVal).reverse)

theorem ofDigits_replicate_zero (k : Nat) :
    Nat.ofDigits 10 (List.replicate k 0) = 0 := by
  induction k with
  | zero => rfl
  | succ k ih => rw [List.replicate_succ, Nat.ofDigits_cons, ih]

theorem decodeDecimal_natDecimal (n : Nat) : decodeDecimal (natDecimal n) = n := by
  rw [natDecimal_eq_digits]
  by_cases h : n = 0
  · subst h; decide
  · rw [if_neg h, decodeDecimal]
    have hmap : ((Nat.digits 10 n).map digitChar).map charVal = Nat.digits 10 n := by
      rw [List.map_map]
      have h1 : List.map (charVal ∘ digitChar) (Nat.digits 10 n)
          = List.map id (Nat.digits 10 n) :=
        List.map_congr_left
          (fun d hd => charVal_digitChar (Nat.digits_lt_base (by norm_num) hd))
      rw [h1, List.map_id]
    rw [List.map_reverse, hmap, List.reverse_reverse, Nat.ofDigits_digits]

theorem decodeDecimal_pad5 (n : Nat) : decodeDecimal (pad5 n) = n := by
  rw [pad5, decodeDecimal, List.map_append, List.reverse_append]
  have hrep : (List.replicate (5 - (natDecimal n).length) '0').map charVal
      = List.replicate (5 - (natDecimal n).length) 0 := by
    rw [List.map_replicate]; rfl
  rw [hrep, List.reverse_replicate, Nat.ofDigits_append,
      ofDigits_replicate_zero, Nat.mul_zero, Nat.add_zero]
  exact decodeDecimal_natDecimal n

theorem pad5_injective {a b : Nat} (h : pad5 a = pad5 b) : a = b := by
  have := decodeDecimal_pad5 a
  rw [h, decodeDecimal_pad5] at this
  omega

theorem segFileName_injective {a b : Nat} (h : segFileName a = segFileName b) :
    a = b := by
  have hdata : ('s' :: 'e' :: 'g' :: (pad5 a ++ ['.', 't', 's']))
      = ('s' :: 'e' :: 'g' :: (pad5 b ++ ['.', 't', 's'])) := congrArg String.data h
  have happ : pad5 a ++ ['.', 't', 's'] = pad5 b ++ ['.', 't', 's'] := by
    injection hdata with _ h1
    injection h1 with _ h2
    injection h2 with _ h3
  exact pad5_injective (List.append_cancel_right happ)

/-! ## Cookie header strings

`fetch_playlist_and_cookies` builds `cookie_header = "; ".join(f"{name}={value}" ...)`;
`download_segments_and_concat` re-parses it with `cookie_header.split("; ")`
and `pair.split("=", 1)`. -/

/-- Prepend a character to the first part of a split result. -/
def consHd (a : Char) : List (List Char) → List (List Char)
  | [] => [[a]]
  | p :: ps => (a :: p) :: ps

/-- Python `s.split("; ")`: split at each leftmost non-overlapping occurrence
of the two-character separator `"; "`. -/
def splitSep : List Char → List (List Char)
  | [] => [[]]
  | a :: rest =>
    match rest with
    | [] => [[a]]
    | b :: rest2 =>
      if a = ';' ∧ b = ' ' then [] :: splitSep rest2
      else consHd a (splitSep (b :: rest2))

/-- Python `"; ".join(parts)`. -/
def joinSep : List (List Char) → List Char
  | [] => []
  | [p] => p
  | p :: ps => p ++ ';' :: ' ' :: joinSep ps

/-- `true` when the string contains no occurrence of the separator `"; "`. -/
def sepFree : List Char → Bool
  | a :: b :: rest => !(a = ';' && b = ' ') && sepFree (b :: rest)
  | _ => true

theorem sepFree_cons {a : Char} {l : List Char} (h : sepFree (a :: l)) :
    sepFree l := by
  match l with
  | [] => rfl
  | b :: rest =>
    rw [sepFree, Bool.and_eq_true] at h
    exact h.2

theorem splitSep_sepFree : ∀ (l : List Char), sepFree l → splitSep l = [l] := by
  intro l
  induction l with
  | nil => intro _; rfl
  | cons a t ih =>
    intro h
    match t with
    | [] => rfl
    | b :: rest =>
      have hab : ¬(a = ';' ∧ b = ' ') := by
        rw [sepFree, Bool.and_eq_true] at h
        intro hc
        have := h.1
        rw [hc.1, hc.2] at this
        simp at this
      rw [splitSep, if_neg hab, ih (sepFree_cons h)]
      rfl

theorem splitSep_append_sep (rest : List Char) :
    ∀ (a : List Char), sepFree a →
      splitSep (a ++ ';' :: ' ' :: rest) = a :: splitSep rest := by
  intro a
  induction a with
  | nil =>
    intro _
    rw [List.nil_append, splitSep, if_pos ⟨rfl, rfl⟩]
  | cons c t ih =>
    intro h
    match t with
    | [] =>
      have hc : ¬(c = ';' ∧ (';' : Char) = ' ') := by
        intro hx
        exact absurd hx.2 (by decide)
      rw [List.cons_append, List.nil_append, splitSep, if_neg hc,
        splitSep, if_pos ⟨rfl, rfl⟩]
      rfl
    | b :: rest2 =>
      have hab : ¬(c = ';' ∧ b = ' ') := by
        rw [sepFree, Bool.and_eq_true] at h
        intro hc
        have := h.1
        rw [hc.1, hc.2] at this
        simp at this
      rw [List.cons_append, List.cons_append, splitSep, if_neg hab,
        ← List.cons_append, ih (sepFree_cons h)]
      rfl

theorem splitSep_joinSep :
    ∀ (parts : List (List Char)), (∀ p ∈ parts, sepFree p) → parts ≠ [] →
      splitSep (joinSep parts) = parts := by
  intro parts
  induction parts with
  | nil => intro _ h; exact absurd rfl h
  | cons p ps ih =>
    intro hall _
    match ps with
    | [] => exact splitSep_sepFree p (hall p (by simp))
    | q :: qs =>
      rw [joinSep, splitSep_append_sep _ p (hall p (by simp)),
        ih (fun x hx => hall x (by simp [hx])) (List.cons_ne_nil q qs)]
      intro hx
      exact absurd hx (List.cons_ne_nil q qs)

/-- The cookie header built in `fetch_playlist_and_cookies`:
`"; ".join(f"{c['name']}={c['value']}" for c in cookies if c.get("name") and c.get("value"))`. -/
def cookieHeaderOf (cookies : List Cookie) : List Char :=
  joinSep ((cookies.filter (fun c => !(c.name == []) && !(c.value == []))).map
    (fun c => c.name ++ '=' :: c.value))

/-- The `cookie_list` loop of `download_segments_and_concat`: split the
header on `"; "`, skip pairs without `"="`, split each kept pair at the
first `"="`, and attach the playlist URL's host as `domain` and `"/"` as
`path`. -/
def buildCookieList (host : String) (cookie_header : List Char) : List SegCookie :=
  (splitSep cookie_header).filterMap (fun pair =>
    if '=' ∈ pair then
      some { name := pair.takeWhile (fun c => c ≠ '='),
             value := (pair.dropWhile (fun c => c ≠ '=')).tail,
             domain := host, path := "/" }
    else none)

/-! ## URL helpers -/

/-- Models `hls_url.rsplit("/", 1)[0] + "/"`: the base URL of the playlist
(everything up to and including the last slash). -/
def rsplitBase (url : String) : String :=
  if url.data.contains '/' then
    ⟨(url.data.reverse.dropWhile (fun c => c ≠ '/')).reverse⟩
  else url ++ "/"

/-- Scheme-and-authority part of a URL (helper for `urljoin`): copies up to
`"://"`, then the host chunk up to the next slash. -/
def originAux : List Char → List Char
  | ':' :: '/' :: '/' :: rest => ':' :: '/' :: '/' :: rest.takeWhile (fun c => c ≠ '/')
  | c :: rest => c :: originAux rest
  | [] => []

/-- Host part of a URL (helper for `hostname`). -/
def hostnameAux : List Char → List Char
  | ':' :: '/' :: '/' :: rest =>
    (rest.takeWhile (fun c => c ≠ '/')).takeWhile (fun c => c ≠ ':')
  | _ :: rest => hostnameAux rest
  | [] => []

/-- Models `urllib.parse.urlparse(url).hostname`: the host component with
any port stripped (userinfo and case normalization are not exercised by
this program). -/
def hostname (url : String) : String := ⟨hostnameAux url.data⟩

/-- `true` when the string contains the scheme separator `"://"`. -/
def hasSchemeSep : List Char → Bool
  | ':' :: '/' :: '/' :: _ => true
  | _ :: rest => hasSchemeSep rest
  | [] => false

/-- Models `urllib.parse.urljoin` for the reference shapes this program
exercises: an empty reference keeps the base, an absolute URL replaces the
base, a root-relative path is resolved against the base's origin, and any
other relative path is resolved against the base's directory. -/
def urljoin (base rel : String) : String :=
  if rel.data == [] then base
  else if hasSchemeSep rel.data then rel
  else if rel.data.head? == some '/' then String.mk (originAux base.data) ++ rel
  else rsplitBase base ++ rel

/-! ## Playlist resolution (`fetch_playlist_and_cookies`) -/

/-- One entry of a variant playlist's rendition list (`playlist.playlists[i]`). -/
structure VariantRef where
  uri : String
  deriving DecidableEq, Repr

/-- A parsed playlist as returned by the external `m3u8.loads`:
the `is_variant` flag, the rendition list `playlists`, and the media
segment URIs `segments`. -/
structure M3U8 where
  is_variant : Bool
  playlists : List VariantRef
  segments : List String
  deriving DecidableEq, Repr

/-- The resolution logic of `fetch_playlist_and_cookies` after the browser
capture.  The captured master response (`master_url`, `master_text`) and
the captured `cookies` are inputs; `parse` is the external `m3u8.loads`;
`ctxGet` is `ctx.request.get(...).text()` issued by the same browser
context, so it carries the captured session.  Returns
`(final_url, cookie_header, playlist_text)`; `playlist.playlists[0]` on an
empty rendition list raises `IndexError`. -/
def fetch_playlist_and_cookies (parse : String → M3U8) (ctxGet : String → String)
    (master_url master_text : String) (cookies : List Cookie) :
    Except PyError (String × String × String) :=
  let playlist := parse master_text
  let cookie_header : String := ⟨cookieHeaderOf cookies⟩
  if playlist.is_variant then
    match playlist.playlists with
    | [] => .error .indexError
    | v :: _ =>
      let variant_url := urljoin master_url v.uri
      .ok (variant_url, cookie_header, ctxGet variant_url)
  else
    .ok (master_url, cookie_header, master_text)

/-! ## Segment download and remux (`download_segments_and_concat`) -/

/-- The browser context used for segment fetches: it holds exactly the
cookies injected once by `ctx.add_cookies(cookie_list)`. -/
structure BrowserCtx where
  cookies : List SegCookie
  deriving DecidableEq, Repr

/-- Result of the download loop: the updated working directory, the trace
of issued requests, and the trace of written file names. -/
structure LoopOut where
  fs : FS
  requests : List Request
  written : List String
  deriving Repr

/-- The segment download loop
(`for idx, seg_url in enumerate(segments): ...`), started at index `k`:
each step issues `ctx.request.get(seg_url)` with the context's cookies and
writes `resp.body()` to `seg{idx:05d}.ts` — the status is never checked. -/
def downloadLoopFrom (ctx : BrowserCtx) (net : Request → HttpResponse) :
    Nat → List String → FS → LoopOut
  | _, [], fs => { fs := fs, requests := [], written := [] }
  | idx, u :: us, fs =>
    let req : Request := { url := u, cookies := ctx.cookies }
    let resp := net req
    let fs1 := fsWrite fs (segFileName idx) (.bytes resp.body)
    let rest := downloadLoopFrom ctx net (idx + 1) us fs1
    { fs := rest.fs, requests := req :: rest.requests,
      written := segFileName idx :: rest.written }

/-- Content of the ffmpeg concat manifest `inputs.txt`: the lines
`f"file 'seg{idx:05d}.ts'\n"` for `idx in range(len(segments))`. -/
def inputsContent (n : Nat) : String :=
  String.join ((List.range n).map (fun idx =>
    "file \x27" ++ segFileName idx ++ "\x27\n"))

/-- The fixed `ffmpeg` invocation: `subprocess.run([...], check=True)` —
no `timeout=` argument is passed. -/
def ffmpegCall : SubprocessCall :=
  { args := ["ffmpeg", "-f", "concat", "-safe", "0", "-i", "inputs.txt",
             "-c", "copy", "video.mp4"],
    check := true, timeout := none }

/-- Models membership in `glob.glob("seg*.ts")`: the name starts with
`seg` and ends with `.ts`. -/
def matchesSegGlob (name : String) : Bool :=
  ['s', 'e', 'g'].isPrefixOf name.data && ['.', 't', 's'].isSuffixOf name.data

/-- The cleanup step
`for fn in glob.glob("seg*.ts") + ["inputs.txt"]: os.remove(fn)`:
removes every existing file matching the glob, plus the manifest. -/
def cleanupStep (fs : FS) : FS :=
  fs.filter (fun e => !(matchesSegGlob e.1 || e.1 == "inputs.txt"))

/-- Result of one `download_segments_and_concat` run. -/
structure RunOut where
  fs : FS
  requests : List Request
  written : List String
  result : Except PyError String
  deriving Repr

/-- First half of `download_segments_and_concat`: parse the media playlist
(`m3u8.loads`), resolve each segment URI against
`hls_url.rsplit("/", 1)[0] + "/"`, build `cookie_list` once from the
header and the playlist host, inject it into a fresh context, and run the
download loop from index 0. -/
def fetchStage (parse : String → M3U8) (net : Request → HttpResponse)
    (hls_url cookie_header playlist_text : String) (fs : FS) : LoopOut :=
  let pl := parse playlist_text
  let base := rsplitBase hls_url
  let segments := pl.segments.map (fun u => urljoin base u)
  let host := hostname hls_url
  let cookie_list := buildCookieList host cookie_header.data
  downloadLoopFrom { cookies := cookie_list } net 0 segments fs

/-- `download_segments_and_concat`: fetch stage, concat manifest, the
`ffmpeg` subprocess (the oracle `exec` returns the exit code and the bytes
of the produced `video.mp4`), and — only after a zero exit — the cleanup
step.  A non-zero exit raises `CalledProcessError` (because of
`check=True`), skipping both the cleanup and the return. -/
def download_segments_and_concat (parse : String → M3U8)
    (net : Request → HttpResponse) (exec : SubprocessCall → FS → Int × List Nat)
    (hls_url cookie_header playlist_text : String) (fs : FS) : RunOut :=
  let stage := fetchStage parse net hls_url cookie_header playlist_text fs
  let n := (parse playlist_text).segments.length
  let fs2 := fsWrite stage.fs "inputs.txt" (.text (inputsContent n))
  let r := exec ffmpegCall fs2
  if r.1 = 0 then
    let fs3 := fsWrite fs2 "video.mp4" (.bytes r.2)
    { fs := cleanupStep fs3,
      requests := stage.requests,
      written := stage.written ++ ["inputs.txt", "video.mp4"],
      result := .ok "video.mp4" }
  else
    { fs := fs2, requests := stage.requests,
      written := stage.written ++ ["inputs.txt"],
      result := .error (.calledProcessError r.1) }

/-! ## Lemmas about the download loop and cleanup -/

theorem downloadLoopFrom_requests (ctx : BrowserCtx) (net : Request → HttpResponse) :
    ∀ (us : List String) (k : Nat) (fs : FS),
      (downloadLoopFrom ctx net k us fs).requests
        = us.map (fun u => { url := u, cookies := ctx.cookies }) := by
  intro us
  induction us with
  | nil => intro k fs; rfl
  | cons u us ih =>
    intro k fs
    have hstep : (downloadLoopFrom ctx net k (u :: us) fs).requests
        = { url := u, cookies := ctx.cookies }
          :: (downloadLoopFrom ctx net (k + 1) us
              (fsWrite fs (segFileName k)
                (FileData.bytes (net { url := u, cookies := ctx.cookies }).body))).requests := rfl
    rw [hstep, ih, List.map_cons]

theorem downloadLoopFrom_written (ctx : BrowserCtx) (net : Request → HttpResponse) :
    ∀ (us : List String) (k : Nat) (fs : FS),
      (downloadLoopFrom ctx net k us fs).written
        = (List.range' k us.length).map segFileName := by
  intro us
  induction us with
  | nil => intro k fs; rfl
  | cons u us ih =>
    intro k fs
    have hstep : (downloadLoopFrom ctx net k (u :: us) fs).written
        = segFileName k
          :: (downloadLoopFrom ctx net (k + 1) us
              (fsWrite fs (segFileName k)
                (FileData.bytes (net { url := u, cookies := ctx.cookies }).body))).written := rfl
    rw [hstep, ih, List.length_cons, List.range'_succ, List.map_cons]

theorem downloadLoopFrom_fs (ctx : BrowserCtx) (net : Request → HttpResponse) :
    ∀ (us : List String) (k : Nat) (fs : FS),
      (∀ e ∈ fs, ∀ i : Nat, k ≤ i → e.1 ≠ segFileName i) →
      (downloadLoopFrom ctx net k us fs).fs
        = fs ++ (List.enumFrom k us).map
            (fun p => (segFileName p.1,
              FileData.bytes (net { url := p.2, cookies := ctx.cookies }).body)) := by
  intro us
  induction us with
  | nil => intro k fs _; simp [downloadLoopFrom]
  | cons u us ih =>
    intro k fs h
    have hw : fsWrite fs (segFileName k)
          (FileData.bytes (net { url := u, cookies := ctx.cookies }).body)
        = fs ++ [(segFileName k,
            FileData.bytes (net { url := u, cookies := ctx.cookies }).body)] := by
      rw [fsWrite, List.eraseP_of_forall_not]
      intro e he
      simp only [beq_iff_eq]
      exact h e he k (le_refl k)
    have hstep : (downloadLoopFrom ctx net k (u :: us) fs).fs
        = (downloadLoopFrom ctx net (k + 1) us
            (fsWrite fs (segFileName k)
              (FileData.bytes (net { url := u, cookies := ctx.cookies }).body))).fs := rfl
    rw [hstep, hw, ih (k + 1)]
    · simp [List.enumFrom, List.append_assoc]
    · intro e he i hi
      rcases List.mem_append.mp he with h1 | h2
      · exact h e h1 i (by omega)
      · have he2 : e = (segFileName k,
            FileData.bytes (net { url := u, cookies := ctx.cookies }).body) := by
          simpa using h2
        subst he2
        intro hx
        have := segFileName_injective hx
        omega

theorem segFileName_ne_inputs (i : Nat) : segFileName i ≠ "inputs.txt" := by
  intro h
  have hdata := congrArg String.data h
  rw [show ("inputs.txt" : String).data
      = ['i', 'n', 'p', 'u', 't', 's', '.', 't', 'x', 't'] from rfl] at hdata
  injection hdata with h1 _
  exact absurd h1 (by decide)

theorem segFileName_ne_video (i : Nat) : segFileName i ≠ "video.mp4" := by
  intro h
  have hdata := congrArg String.data h
  rw [show ("video.mp4" : String).data
      = ['v', 'i', 'd', 'e', 'o', '.', 'm', 'p', '4'] from rfl] at hdata
  injection hdata with h1 _
  exact absurd h1 (by decide)

theorem cleanupStep_not_mem {fs : FS} {name : String} {d : FileData}
    (h : matchesSegGlob name = true ∨ name = "inputs.txt") :
    (name, d) ∉ cleanupStep fs := by
  intro hmem
  have hp := (List.mem_filter.mp hmem).2
  rcases h with h | h <;> simp [h] at hp

theorem inputs_txt_mem_written (parse : String → M3U8) (net : Request → HttpResponse)
    (exec : SubprocessCall → FS → Int × List Nat)
    (hls_url cookie_header playlist_text : String) (fs : FS) :
    "inputs.txt" ∈ (download_segments_and_concat parse net exec
      hls_url cookie_header playlist_text fs).written := by
  rw [download_segments_and_concat]
  by_cases hr : (exec ffmpegCall
      (fsWrite (fetchStage parse net hls_url cookie_header playlist_text fs).fs
        "inputs.txt"
        (FileData.text (inputsContent (parse playlist_text).segments.length)))).1 = 0
  · simp only [hr, if_pos rfl]
    exact List.mem_append.mpr (Or.inr (by simp))
  · simp only [if_neg hr]
    exact List.mem_append.mpr (Or.inr (by simp))

/-! ## Cookie round-trip lemmas -/

theorem sepFree_append_eq :
    ∀ (a b : List Char), sepFree a = true → sepFree b = true →
      sepFree (a ++ '=' :: b) = true := by
  intro a
  induction a with
  | nil =>
    intro b _ hb
    match b with
    | [] => rfl
    | b0 :: r =>
      show (!(('=' : Char) = ';' && b0 = ' ') && sepFree (b0 :: r)) = true
      simp [hb]
  | cons a0 t ih =>
    intro b h hb
    match t with
    | [] =>
      show (!(a0 = ';' && ('=' : Char) = ' ') && sepFree ('=' :: b)) = true
      have hmid : sepFree ('=' :: b) = true := ih b rfl hb
      simp [hmid]
    | t0 :: tt =>
      show (!(a0 = ';' && t0 = ' ') && sepFree (t0 :: (tt ++ '=' :: b))) = true
      have h1 : (!(a0 = ';' && t0 = ' ')) = true := by
        rw [sepFree, Bool.and_eq_true] at h
        exact h.1
      have h2 : sepFree (t0 :: tt ++ '=' :: b) = true := ih b (sepFree_cons h) hb
      simp only [Bool.and_eq_true]
      exact ⟨h1, h2⟩

theorem takeWhile_name_eq (value : List Char) :
    ∀ (name : List Char), '=' ∉ name →
      (name ++ '=' :: value).takeWhile (fun c => c ≠ '=') = name := by
  intro name
  induction name with
  | nil =>
    intro _
    simp [List.takeWhile_cons]
  | cons a t ih =>
    intro h
    have ha : ¬(a = '=') := by
      intro hx
      exact h (by rw [hx]; exact List.mem_cons_self '=' t)
    have ht : '=' ∉ t := fun hx => h (List.mem_cons_of_mem a hx)
    rw [List.cons_append, List.takeWhile_cons, if_pos (by simp [ha]), ih ht]

theorem dropWhile_value_eq (value : List Char) :
    ∀ (name : List Char), '=' ∉ name →
      (name ++ '=' :: value).dropWhile (fun c => c ≠ '=') = '=' :: value := by
  intro name
  induction name with
  | nil =>
    intro _
    simp [List.dropWhile_cons]
  | cons a t ih =>
    intro h
    have ha : ¬(a = '=') := by
      intro hx
      exact h (by rw [hx]; exact List.mem_cons_self '=' t)
    have ht : '=' ∉ t := fun hx => h (List.mem_cons_of_mem a hx)
    rw [List.cons_append, List.dropWhile_cons, if_pos (by simp [ha]), ih ht]

theorem filterMap_map_eq_map {α β γ : Type} (f : β → Option γ) (g : α → β) (h2 : α → γ) :
    ∀ (l : List α), (∀ x ∈ l, f (g x) = some (h2 x)) →
      (l.map g).filterMap f = l.map h2 := by
  intro l
  induction l with
  | nil => intro _; rfl
  | cons x t ih =>
    intro h
    rw [List.map_cons, List.filterMap_cons, h x (by simp), List.map_cons,
      ih (fun y hy => h y (by simp [hy]))]

/-! ## Concrete oracles for witnesses and counterexamples -/

/-- A one-segment media playlist, as `m3u8.loads` returns for it. -/
def parse1 : String → M3U8 :=
  fun _ => { is_variant := false, playlists := [], segments := ["s0.ts"] }

/-- A media playlist with zero recognized segments (what the non-strict
`m3u8.loads` yields for directive-free text). -/
def parseEmpty : String → M3U8 :=
  fun _ => { is_variant := false, playlists := [], segments := [] }

/-- A master playlist with two renditions. -/
def parseMaster : String → M3U8 :=
  fun _ => { is_variant := true,
             playlists := [{ uri := "low/index.m3u8" }, { uri := "hi/index.m3u8" }],
             segments := [] }

/-- A server answering 403 with a body to every request. -/
def net403 : Request → HttpResponse := fun _ => { status := 403, body := [1, 2, 3] }

/-- A server answering 200 with the same body to every request. -/
def netSameBody200 : Request → HttpResponse := fun _ => { status := 200, body := [1, 2, 3] }

/-- A server answering 200 with body `[5]` to every request. -/
def net200 : Request → HttpResponse := fun _ => { status := 200, body := [5] }

/-- An `ffmpeg` run that exits 0 and produces output bytes `[9]`. -/
def execZero : SubprocessCall → FS → Int × List Nat := fun _ _ => (0, [9])

/-- An `ffmpeg` run that exits 1. -/
def execOne : SubprocessCall → FS → Int × List Nat := fun _ _ => (1, [])

/-- The session fetch used in playlist resolution witnesses. -/
def ctxGet1 : String → String := fun _ => "#EXTM3U media"

/-! ## Claims -/

/-- **C1.** For every media playlist with `N` segments, the segment fetch
stage (run in a clean working directory) produces exactly the files
`seg00000.ts .. seg{N-1:05d}.ts`, one per segment in the playlist's
original order with that segment's response body, with no gaps, duplicates
or reordering; and the concat manifest `inputs.txt` lists exactly those `N`
file names in ascending index order. -/
theorem c1_contiguous_ordered_segment_files
    (parse : String → M3U8) (net : Request → HttpResponse)
    (hls_url cookie_header playlist_text : String) :
    (fetchStage parse net hls_url cookie_header playlist_text []).fs
      = ((parse playlist_text).segments.map (fun u => urljoin (rsplitBase hls_url) u)).enum.map
          (fun p => (segFileName p.1, FileData.bytes
            (net { url := p.2,
                   cookies := buildCookieList (hostname hls_url) cookie_header.data }).body))
    ∧ (fetchStage parse net hls_url cookie_header playlist_text []).written
        = (List.range (parse playlist_text).segments.length).map segFileName
    ∧ ((List.range (parse playlist_text).segments.length).map segFileName).Nodup
    ∧ inputsContent (parse playlist_text).segments.length
        = String.join (((List.range (parse playlist_text).segments.length).map segFileName).map
            (fun nm => "file \x27" ++ nm ++ "\x27\n")) := by
  refine ⟨?_, ?_, ?_, ?_⟩
  · have hfs := downloadLoopFrom_fs
      { cookies := buildCookieList (hostname hls_url) cookie_header.data } net
      ((parse playlist_text).segments.map (fun u => urljoin (rsplitBase hls_url) u)) 0 []
      (by intro e he; cases he)
    rw [show (fetchStage parse net hls_url cookie_header playlist_text []).fs
        = (downloadLoopFrom
            { cookies := buildCookieList (hostname hls_url) cookie_header.data } net 0
            ((parse playlist_text).segments.map (fun u => urljoin (rsplitBase hls_url) u))
            []).fs from rfl, hfs]
    rw [List.nil_append]
    rfl
  · have hwr := downloadLoopFrom_written
      { cookies := buildCookieList (hostname hls_url) cookie_header.data } net
      ((parse playlist_text).segments.map (fun u => urljoin (rsplitBase hls_url) u)) 0 []
    rw [show (fetchStage parse net hls_url cookie_header playlist_text []).written
        = (downloadLoopFrom
            { cookies := buildCookieList (hostname hls_url) cookie_header.data } net 0
            ((parse playlist_text).segments.map (fun u => urljoin (rsplitBase hls_url) u))
            []).written from rfl, hwr]
    rw [List.length_map, List.range_eq_range']
  · exact List.Nodup.map (fun a b hab => segFileName_injective hab)
      (List.nodup_range (parse playlist_text).segments.length)
  · rw [inputsContent, List.map_map]
    rfl

/-- **C2 counterexample.** A 403 response on segment 0 does not fail the
Job: the response is not status-checked, the 403 body is saved as
`seg00000.ts`, and the run completes with `video.mp4`. -/
theorem c2_counterexample :
    (net403 { url := "https://h/s0.ts", cookies := [] }).status = 403
    ∧ (download_segments_and_concat parse1 net403 execZero
        "https://h/x.m3u8" "" "pl" []).result = Except.ok "video.mp4"
    ∧ (download_segments_and_concat parse1 net403 execZero
        "https://h/x.m3u8" "" "pl" []).written
        = ["seg00000.ts", "inputs.txt", "video.mp4"] := by
  refine ⟨rfl, rfl, rfl⟩

theorem downloadLoopFrom_body_congr (ctx : BrowserCtx)
    (net net2 : Request → HttpResponse)
    (h : ∀ r, (net r).body = (net2 r).body) :
    ∀ (us : List String) (k : Nat) (fs : FS),
      downloadLoopFrom ctx net k us fs = downloadLoopFrom ctx net2 k us fs := by
  intro us
  induction us with
  | nil => intro k fs; rfl
  | cons u us ih =>
    intro k fs
    show ({ fs := _, requests := _, written := _ } : LoopOut) = _
    rw [h { url := u, cookies := ctx.cookies }, ih]
    rfl

/-- **C2 amended.** Segment responses' HTTP statuses are never inspected:
each response body is written to the segment file whatever the status, no
`SegmentFetchError` exists, and replacing any response's status while
keeping its body leaves the entire run (files, requests, result)
unchanged — so a 403 on segment 0 is saved as `seg00000.ts` and the Job
proceeds. -/
theorem c2_amended_status_never_inspected
    (parse : String → M3U8) (net net2 : Request → HttpResponse)
    (exec : SubprocessCall → FS → Int × List Nat)
    (hls_url cookie_header playlist_text : String) (fs : FS)
    (h : ∀ r, (net r).body = (net2 r).body) :
    download_segments_and_concat parse net exec hls_url cookie_header playlist_text fs
      = download_segments_and_concat parse net2 exec hls_url cookie_header playlist_text fs := by
  have hstage : fetchStage parse net hls_url cookie_header playlist_text fs
      = fetchStage parse net2 hls_url cookie_header playlist_text fs :=
    downloadLoopFrom_body_congr _ net net2 h _ 0 fs
  rw [download_segments_and_concat, download_segments_and_concat, hstage]

/-- Witness for C2 amended: a run against an all-403 server equals the run
against an all-200 server with the same bodies. -/
theorem c2_amended_witness :
    download_segments_and_concat parse1 net403 execZero "https://h/x.m3u8" "" "pl" []
      = download_segments_and_concat parse1 netSameBody200 execZero
          "https://h/x.m3u8" "" "pl" [] :=
  c2_amended_status_never_inspected parse1 net403 netSameBody200 execZero
    "https://h/x.m3u8" "" "pl" [] (fun _ => rfl)

/-- **C3 counterexample.** Two Jobs for different targets (different page
hosts and playlists) write exactly the same working file paths — in
particular both write `seg00000.ts` — so namespace isolation fails. -/
theorem c3_counterexample :
    (download_segments_and_concat parse1 net200 execZero
        "https://hostA/a.m3u8" "" "plA" []).written
      = (download_segments_and_concat parse1 net200 execZero
        "https://hostB/b.m3u8" "" "plB" []).written
    ∧ "seg00000.ts" ∈ (download_segments_and_concat parse1 net200 execZero
        "https://hostA/a.m3u8" "" "plA" []).written
    ∧ "seg00000.ts" ∈ (download_segments_and_concat parse1 net200 execZero
        "https://hostB/b.m3u8" "" "plB" []).written := by
  refine ⟨rfl, by decide, by decide⟩

/-- **C3 amended.** Working file names are fixed and shared across all
Jobs: every Job writes the manifest path `inputs.txt`, and every Job with
at least one segment writes `seg00000.ts` — the names never depend on the
target, so two concurrent Jobs write overlapping paths and isolation does
not hold. -/
theorem c3_amended_fixed_shared_paths
    (parse : String → M3U8) (net : Request → HttpResponse)
    (exec : SubprocessCall → FS → Int × List Nat)
    (hls_url cookie_header playlist_text : String) (fs : FS)
    (hne : (parse playlist_text).segments ≠ []) :
    "inputs.txt" ∈ (download_segments_and_concat parse net exec
        hls_url cookie_header playlist_text fs).written
    ∧ segFileName 0 ∈ (download_segments_and_concat parse net exec
        hls_url cookie_header playlist_text fs).written
    ∧ segFileName 0 = "seg00000.ts" := by
  refine ⟨inputs_txt_mem_written parse net exec hls_url cookie_header playlist_text fs,
    ?_, rfl⟩
  have hn : 0 < ((parse playlist_text).segments.map
      (fun u => urljoin (rsplitBase hls_url) u)).length := by
    rw [List.length_map]
    exact List.length_pos.mpr hne
  have hmem : segFileName 0 ∈ (fetchStage parse net hls_url cookie_header
      playlist_text fs).written := by
    rw [show (fetchStage parse net hls_url cookie_header playlist_text fs).written
        = (downloadLoopFrom
            { cookies := buildCookieList (hostname hls_url) cookie_header.data } net 0
            ((parse playlist_text).segments.map (fun u => urljoin (rsplitBase hls_url) u))
            fs).written from rfl,
      downloadLoopFrom_written, ← List.range_eq_range']
    exact List.mem_map.mpr ⟨0, List.mem_range.mpr hn, rfl⟩
  rw [download_segments_and_concat]
  by_cases hr : (exec ffmpegCall
      (fsWrite (fetchStage parse net hls_url cookie_header playlist_text fs).fs
        "inputs.txt"
        (FileData.text (inputsContent (parse playlist_text).segments.length)))).1 = 0
  · simp only [hr, if_pos rfl]
    exact List.mem_append.mpr (Or.inl hmem)
  · simp only [if_neg hr]
    exact List.mem_append.mpr (Or.inl hmem)

/-- Witness for C3 amended: a concrete one-segment Job writes both shared
fixed paths. -/
theorem c3_amended_witness :
    "inputs.txt" ∈ (download_segments_and_concat parse1 net200 execZero
        "https://hostA/a.m3u8" "" "plA" []).written
    ∧ segFileName 0 ∈ (download_segments_and_concat parse1 net200 execZero
        "https://hostA/a.m3u8" "" "plA" []).written
    ∧ segFileName 0 = "seg00000.ts" :=
  c3_amended_fixed_shared_paths parse1 net200 execZero
    "https://hostA/a.m3u8" "" "plA" [] (by decide)

/-- **C4 counterexample.** When the remux subprocess exits non-zero, the
Job fails but the temp segment file and the manifest are NOT deleted: the
cleanup loop is placed after `subprocess.run(..., check=True)` and is
skipped on the exception path. -/
theorem c4_counterexample :
    (download_segments_and_concat parse1 net200 execOne
        "https://h/x.m3u8" "" "pl" []).result
      = Except.error (PyError.calledProcessError 1)
    ∧ ("seg00000.ts", FileData.bytes [5])
        ∈ (download_segments_and_concat parse1 net200 execOne
            "https://h/x.m3u8" "" "pl" []).fs
    ∧ ("inputs.txt", FileData.text "file \x27seg00000.ts\x27\n")
        ∈ (download_segments_and_concat parse1 net200 execOne
            "https://h/x.m3u8" "" "pl" []).fs := by
  refine ⟨rfl, by decide, by decide⟩

/-- **C4 amended.** SegmentFiles are deleted only on the success path.  On
the remux-failure path (`CalledProcessError`) the cleanup is skipped and,
starting from a working directory without colliding names, the final
directory still holds every temp segment file and the manifest. -/
theorem c4_amended_failure_leaves_residuals
    (parse : String → M3U8) (net : Request → HttpResponse)
    (exec : SubprocessCall → FS → Int × List Nat)
    (hls_url cookie_header playlist_text : String) (fs : FS)
    (hclean : ∀ e ∈ fs, (∀ i : Nat, e.1 ≠ segFileName i) ∧ e.1 ≠ "inputs.txt")
    (ec : Int)
    (hfail : (download_segments_and_concat parse net exec
        hls_url cookie_header playlist_text fs).result
      = Except.error (PyError.calledProcessError ec)) :
    (download_segments_and_concat parse net exec
        hls_url cookie_header playlist_text fs).fs
      = fs
        ++ ((parse playlist_text).segments.map
              (fun u => urljoin (rsplitBase hls_url) u)).enum.map
            (fun p => (segFileName p.1, FileData.bytes
              (net { url := p.2,
                     cookies := buildCookieList (hostname hls_url) cookie_header.data }).body))
        ++ [("inputs.txt",
              FileData.text (inputsContent (parse playlist_text).segments.length))] := by
  have hstage : (fetchStage parse net hls_url cookie_header playlist_text fs).fs
      = fs ++ (List.enumFrom 0 ((parse playlist_text).segments.map
            (fun u => urljoin (rsplitBase hls_url) u))).map
          (fun p => (segFileName p.1, FileData.bytes
            (net { url := p.2,
                   cookies := buildCookieList (hostname hls_url) cookie_header.data }).body)) := by
    rw [show (fetchStage parse net hls_url cookie_header playlist_text fs).fs
        = (downloadLoopFrom
            { cookies := buildCookieList (hostname hls_url) cookie_header.data } net 0
            ((parse playlist_text).segments.map (fun u => urljoin (rsplitBase hls_url) u))
            fs).fs from rfl]
    exact downloadLoopFrom_fs _ net _ 0 fs (fun e he i _ => (hclean e he).1 i)
  by_cases hr : (exec ffmpegCall
      (fsWrite (fetchStage parse net hls_url cookie_header playlist_text fs).fs
        "inputs.txt"
        (FileData.text (inputsContent (parse playlist_text).segments.length)))).1 = 0
  · exfalso
    rw [download_segments_and_concat] at hfail
    rw [if_pos hr] at hfail
    simp at hfail
  · rw [download_segments_and_concat]
    simp only [if_neg hr]
    show fsWrite (fetchStage parse net hls_url cookie_header playlist_text fs).fs
        "inputs.txt"
        (FileData.text (inputsContent (parse playlist_text).segments.length)) = _
    rw [fsWrite, hstage, List.eraseP_of_forall_not]
    · rfl
    intro e he
    simp only [beq_iff_eq]
    rcases List.mem_append.mp he with h1 | h2
    · exact (hclean e h1).2
    · obtain ⟨p, _, hpe⟩ := List.mem_map.mp h2
      rw [← hpe]
      exact segFileName_ne_inputs p.1

/-- Witness for C4 amended: the concrete failing run of the C4 scenario
keeps `seg00000.ts` and `inputs.txt` on disk. -/
theorem c4_amended_witness :
    (download_segments_and_concat parse1 net200 execOne
        "https://h/x.m3u8" "" "pl" []).result
      = Except.error (PyError.calledProcessError 1)
    ∧ (download_segments_and_concat parse1 net200 execOne
        "https://h/x.m3u8" "" "pl" []).fs
      = []
        ++ ((parse1 "pl").segments.map
              (fun u => urljoin (rsplitBase "https://h/x.m3u8") u)).enum.map
            (fun p => (segFileName p.1, FileData.bytes
              (net200 { url := p.2,
                        cookies := buildCookieList (hostname "https://h/x.m3u8")
                          ("" : String).data }).body))
        ++ [("inputs.txt",
              FileData.text (inputsContent (parse1 "pl").segments.length))] :=
  ⟨rfl, c4_amended_failure_leaves_residuals parse1 net200 execOne
    "https://h/x.m3u8" "" "pl" []
    (fun e he => absurd he (List.not_mem_nil e)) 1 rfl⟩

/-- **C5.** For every master playlist with at least one rendition, the
resolution selects the first listed rendition, resolves its URI against
the master's URL, and fetches it through the same captured context; the
selection (a pure function of the parsed text) is deterministic. -/
theorem c5_first_rendition_selected
    (parse : String → M3U8) (ctxGet : String → String)
    (master_url master_text : String) (cookies : List Cookie)
    (v : VariantRef) (vs : List VariantRef)
    (hvar : (parse master_text).is_variant = true)
    (hlist : (parse master_text).playlists = v :: vs) :
    fetch_playlist_and_cookies parse ctxGet master_url master_text cookies
      = Except.ok (urljoin master_url v.uri, String.mk (cookieHeaderOf cookies),
          ctxGet (urljoin master_url v.uri))
    ∧ (parse master_text).playlists.head? = some v := by
  constructor
  · rw [fetch_playlist_and_cookies]
    simp only [hvar, hlist, if_true]
  · rw [hlist]
    rfl

/-- Witness for C5: a concrete two-rendition master resolves to the first
rendition's URL fetched through the captured session. -/
theorem c5_witness :
    fetch_playlist_and_cookies parseMaster ctxGet1 "https://h/master.m3u8" "mt" []
      = Except.ok (urljoin "https://h/master.m3u8" "low/index.m3u8",
          String.mk (cookieHeaderOf []),
          ctxGet1 (urljoin "https://h/master.m3u8" "low/index.m3u8"))
    ∧ (parseMaster "mt").playlists.head? = some { uri := "low/index.m3u8" } :=
  c5_first_rendition_selected parseMaster ctxGet1 "https://h/master.m3u8" "mt" []
    { uri := "low/index.m3u8" } [{ uri := "hi/index.m3u8" }] rfl rfl

/-- **C6.** The cookie list is derived exactly once from the captured
header and the playlist host, and every segment request of the Job carries
that same cookie list unchanged — cookies are not re-derived per segment
and never change between the requests of one run. -/
theorem c6_session_cookies_unchanged
    (parse : String → M3U8) (net : Request → HttpResponse)
    (hls_url cookie_header playlist_text : String) (fs : FS) :
    (fetchStage parse net hls_url cookie_header playlist_text fs).requests
      = ((parse playlist_text).segments.map (fun u => urljoin (rsplitBase hls_url) u)).map
          (fun u => { url := u,
                      cookies := buildCookieList (hostname hls_url) cookie_header.data }) :=
  downloadLoopFrom_requests
    { cookies := buildCookieList (hostname hls_url) cookie_header.data } net
    ((parse playlist_text).segments.map (fun u => urljoin (rsplitBase hls_url) u)) 0 fs

/-- **C7 counterexample.** A media playlist with zero recognized segments
(e.g. directive-free text, which the non-strict parser maps to an empty
playlist) is not rejected with `PlaylistParseError` or
`EmptyPlaylistError` — no such typed errors exist.  The run performs no
fetches, writes an EMPTY concat manifest, invokes ffmpeg, and surfaces its
failure as a plain `CalledProcessError`; no output file is created. -/
theorem c7_counterexample :
    (download_segments_and_concat parseEmpty net200 execOne
        "https://h/x.m3u8" "" "no directives here" []).result
      = Except.error (PyError.calledProcessError 1)
    ∧ (download_segments_and_concat parseEmpty net200 execOne
        "https://h/x.m3u8" "" "no directives here" []).requests = []
    ∧ ("inputs.txt", FileData.text "")
        ∈ (download_segments_and_concat parseEmpty net200 execOne
            "https://h/x.m3u8" "" "no directives here" []).fs
    ∧ fsLookup (download_segments_and_concat parseEmpty net200 execOne
        "https://h/x.m3u8" "" "no directives here" []).fs "video.mp4" = none := by
  refine ⟨rfl, rfl, by decide, by decide⟩

/-- **C7 amended.** The code defines no typed playlist errors.  A playlist
whose parse yields zero segments is not rejected: zero segment fetches are
issued, an empty concat manifest is written, the remux subprocess is
invoked, and the run either succeeds or fails with the subprocess's
`CalledProcessError` — never with a playlist-typed error. -/
theorem c7_amended_zero_segments_not_rejected
    (parse : String → M3U8) (net : Request → HttpResponse)
    (exec : SubprocessCall → FS → Int × List Nat)
    (hls_url cookie_header playlist_text : String) (fs : FS)
    (hz : (parse playlist_text).segments = []) :
    (download_segments_and_concat parse net exec
        hls_url cookie_header playlist_text fs).requests = []
    ∧ "inputs.txt" ∈ (download_segments_and_concat parse net exec
        hls_url cookie_header playlist_text fs).written
    ∧ inputsContent (parse playlist_text).segments.length = ""
    ∧ ((download_segments_and_concat parse net exec
          hls_url cookie_header playlist_text fs).result = Except.ok "video.mp4"
        ∨ ∃ c, (download_segments_and_concat parse net exec
            hls_url cookie_header playlist_text fs).result
          = Except.error (PyError.calledProcessError c)) := by
  have hreq : (fetchStage parse net hls_url cookie_header playlist_text fs).requests = [] := by
    rw [show (fetchStage parse net hls_url cookie_header playlist_text fs).requests
        = (downloadLoopFrom
            { cookies := buildCookieList (hostname hls_url) cookie_header.data } net 0
            ((parse playlist_text).segments.map (fun u => urljoin (rsplitBase hls_url) u))
            fs).requests from rfl,
      downloadLoopFrom_requests, hz]
    rfl
  refine ⟨?_, inputs_txt_mem_written parse net exec hls_url cookie_header playlist_text fs,
    by rw [hz]; rfl, ?_⟩
  · rw [download_segments_and_concat]
    by_cases hr : (exec ffmpegCall
        (fsWrite (fetchStage parse net hls_url cookie_header playlist_text fs).fs
          "inputs.txt"
          (FileData.text (inputsContent (parse playlist_text).segments.length)))).1 = 0
    · rw [if_pos hr]; exact hreq
    · rw [if_neg hr]; exact hreq
  · rw [download_segments_and_concat]
    by_cases hr : (exec ffmpegCall
        (fsWrite (fetchStage parse net hls_url cookie_header playlist_text fs).fs
          "inputs.txt"
          (FileData.text (inputsContent (parse playlist_text).segments.length)))).1 = 0
    · left; rw [if_pos hr]
    · right
      exact ⟨_, by rw [if_neg hr]⟩

/-- Witness for C7 amended: the concrete zero-segment run issues no
fetches, writes the manifest, and completes through the subprocess. -/
theorem c7_amended_witness :
    (download_segments_and_concat parseEmpty net200 execZero
        "https://h/x.m3u8" "" "no directives here" []).requests = []
    ∧ "inputs.txt" ∈ (download_segments_and_concat parseEmpty net200 execZero
        "https://h/x.m3u8" "" "no directives here" []).written
    ∧ inputsContent (parseEmpty "no directives here").segments.length = ""
    ∧ ((download_segments_and_concat parseEmpty net200 execZero
          "https://h/x.m3u8" "" "no directives here" []).result = Except.ok "video.mp4"
        ∨ ∃ c, (download_segments_and_concat parseEmpty net200 execZero
            "https://h/x.m3u8" "" "no directives here" []).result
          = Except.error (PyError.calledProcessError c)) :=
  c7_amended_zero_segments_not_rejected parseEmpty net200 execZero
    "https://h/x.m3u8" "" "no directives here" [] rfl

/-- **C8 counterexample.** The remux subprocess is invoked with NO timeout
argument at all (`subprocess.run` without `timeout=`), so no
caller-supplied wall-clock timeout exists and no `RemuxTimeout` failure is
possible — only `check=True`'s `CalledProcessError` on non-zero exit. -/
theorem c8_counterexample :
    ffmpegCall.timeout = none
    ∧ ffmpegCall.args = ["ffmpeg", "-f", "concat", "-safe", "0", "-i", "inputs.txt",
        "-c", "copy", "video.mp4"]
    ∧ ffmpegCall.check = true :=
  ⟨rfl, rfl, rfl⟩

/-- **C8 amended.** The remux invocation passes no timeout (the
`SubprocessCall` carries `timeout = none`); the only remux failure mode is
the `CalledProcessError` raised via `check=True` when the subprocess exits
non-zero — there is no `RemuxTimeout`. -/
theorem c8_amended_no_timeout_enforced
    (parse : String → M3U8) (net : Request → HttpResponse)
    (exec : SubprocessCall → FS → Int × List Nat)
    (hls_url cookie_header playlist_text : String) (fs : FS) (c : Int)
    (hc : (exec ffmpegCall
        (fsWrite (fetchStage parse net hls_url cookie_header playlist_text fs).fs
          "inputs.txt"
          (FileData.text (inputsContent (parse playlist_text).segments.length)))).1 = c)
    (hcz : c ≠ 0) :
    ffmpegCall.timeout = none
    ∧ (download_segments_and_concat parse net exec
        hls_url cookie_header playlist_text fs).result
      = Except.error (PyError.calledProcessError c) := by
  refine ⟨rfl, ?_⟩
  rw [download_segments_and_concat, if_neg (by rw [hc]; exact hcz)]
  show Except.error (PyError.calledProcessError (exec ffmpegCall
      (fsWrite (fetchStage parse net hls_url cookie_header playlist_text fs).fs
        "inputs.txt"
        (FileData.text (inputsContent (parse playlist_text).segments.length)))).1)
    = Except.error (PyError.calledProcessError c)
  rw [hc]

/-- Witness for C8 amended: a concrete exit-1 run fails with
`CalledProcessError 1` (and the invocation carries no timeout). -/
theorem c8_amended_witness :
    ffmpegCall.timeout = none
    ∧ (download_segments_and_concat parse1 net200 execOne
        "https://h/x.m3u8" "" "pl" []).result
      = Except.error (PyError.calledProcessError 1) :=
  c8_amended_no_timeout_enforced parse1 net200 execOne
    "https://h/x.m3u8" "" "pl" [] 1 rfl (by decide)

/-- **C9.** After a successful remux, the cleanup deletes every file in
the working directory whose name matches `seg*.ts` — including files this
Job never wrote — plus `inputs.txt`. -/
theorem c9_cleanup_removes_all_glob_matches
    (parse : String → M3U8) (net : Request → HttpResponse)
    (exec : SubprocessCall → FS → Int × List Nat)
    (hls_url cookie_header playlist_text : String) (fs : FS)
    (name : String) (d : FileData)
    (hok : (download_segments_and_concat parse net exec
        hls_url cookie_header playlist_text fs).result = Except.ok "video.mp4")
    (hname : matchesSegGlob name = true ∨ name = "inputs.txt") :
    (name, d) ∉ (download_segments_and_concat parse net exec
        hls_url cookie_header playlist_text fs).fs := by
  by_cases hr : (exec ffmpegCall
      (fsWrite (fetchStage parse net hls_url cookie_header playlist_text fs).fs
        "inputs.txt"
        (FileData.text (inputsContent (parse playlist_text).segments.length)))).1 = 0
  · rw [download_segments_and_concat, if_pos hr]
    exact cleanupStep_not_mem hname
  · exfalso
    rw [download_segments_and_concat, if_neg hr] at hok
    simp at hok

/-- Witness for C9: a pre-existing foreign file `segFOREIGN.ts` (not
written by the Job) is removed by the Job's cleanup. -/
theorem c9_witness :
    matchesSegGlob "segFOREIGN.ts" = true
    ∧ ("segFOREIGN.ts", FileData.bytes [9])
        ∉ (download_segments_and_concat parse1 net200 execZero
            "https://h/x.m3u8" "" "pl"
            [("segFOREIGN.ts", FileData.bytes [9])]).fs :=
  ⟨by decide, c9_cleanup_removes_all_glob_matches parse1 net200 execZero
    "https://h/x.m3u8" "" "pl" [("segFOREIGN.ts", FileData.bytes [9])]
    "segFOREIGN.ts" (FileData.bytes [9]) rfl (Or.inl (by decide))⟩

/-- **C10.** Cookie serialization round-trips: for cookies with non-empty
names and values, where names contain no `=` and neither names nor values
contain `"; "`, joining into the header string and re-parsing in the
segment-fetch stage recovers exactly the same name/value pairs in order,
each with the playlist host as domain and `"/"` as path. -/
theorem c10_cookie_header_roundtrip
    (host : String) (cookies : List Cookie)
    (h : ∀ c ∈ cookies, c.name ≠ [] ∧ c.value ≠ [] ∧ '=' ∉ c.name
        ∧ sepFree c.name = true ∧ sepFree c.value = true) :
    buildCookieList host (cookieHeaderOf cookies)
      = cookies.map (fun c =>
          { name := c.name, value := c.value, domain := host, path := "/" }) := by
  rw [cookieHeaderOf]
  have hfilter : cookies.filter (fun c => !(c.name == []) && !(c.value == [])) = cookies :=
    List.filter_eq_self.mpr (fun c hc => by
      obtain ⟨h1, h2, _⟩ := h c hc
      simp [h1, h2])
  rw [hfilter]
  cases cookies with
  | nil => rfl
  | cons c0 rest =>
    rw [buildCookieList,
      splitSep_joinSep ((c0 :: rest).map (fun c => c.name ++ '=' :: c.value))
        (fun p hp => by
          obtain ⟨c, hc, hpc⟩ := List.mem_map.mp hp
          obtain ⟨_, _, _, h4, h5⟩ := h c hc
          rw [← hpc]
          exact sepFree_append_eq c.name c.value h4 h5)
        (by simp)]
    apply filterMap_map_eq_map
    intro c hc
    obtain ⟨h1, h2, h3, _, _⟩ := h c hc
    have hin : '=' ∈ c.name ++ '=' :: c.value :=
      List.mem_append.mpr (Or.inr (List.mem_cons_self _ _))
    show (if '=' ∈ c.name ++ '=' :: c.value then
        some ({ name := (c.name ++ '=' :: c.value).takeWhile (fun x => x ≠ '='),
                value := ((c.name ++ '=' :: c.value).dropWhile (fun x => x ≠ '=')).tail,
                domain := host, path := "/" } : SegCookie)
      else none)
      = some { name := c.name, value := c.value, domain := host, path := "/" }
    rw [if_pos hin, takeWhile_name_eq c.value c.name h3, dropWhile_value_eq c.value c.name h3]
    rfl

/-- A concrete captured cookie list (the second value legitimately
contains `=`). -/
def cookiesW : List Cookie :=
  [{ name := ['s', 'i', 'd'], value := ['a', 'b', 'c'] },
   { name := ['a', 'u', 't', 'h'], value := ['x', '=', 'y'] }]

/-- Witness for C10: the concrete two-cookie capture round-trips through
the header string. -/
theorem c10_witness :
    buildCookieList "h.example" (cookieHeaderOf cookiesW)
      = cookiesW.map (fun c =>
          { name := c.name, value := c.value, domain := "h.example", path := "/" }) :=
  c10_cookie_header_roundtrip "h.example" cookiesW (by decide)
